import Mathlib

/-!
Shallow embedding of the Soda trading bot core (wallet manager, volume
tracker, bundler, MEV protection, risk manager) with verification of the
specified behavioural properties.

Conventions of the embedding:
* Python floats and `Decimal` values are modelled as rationals (`ℚ`).
* Python dicts are modelled as association lists keyed exactly as the
  source keys them.
* External effects (RPC balance queries, transaction submission results,
  `random` draws, `datetime.now()`) are passed in as explicit parameters,
  so every function is a pure, executable translation of the source.
-/

namespace Soda

/-- Python `int(x)` on a rational: truncation toward zero. -/
def pyInt (q : ℚ) : ℤ := if 0 ≤ q then ⌊q⌋ else ⌈q⌉

/-! ### Volume tracker (`src/analytics/volume_tracker.py`) -/

/-- `TradeRecord` dataclass: one recorded trade. -/
structure TradeRecord where
  timestamp : ℚ
  wallet_address : String
  token_address : String
  side : String
  amount : ℚ
  price : ℚ
  profit_loss : ℚ := 0
  price_impact : ℚ := 0
deriving DecidableEq

/-- Per-(wallet, token) position state built by `get_positions`. -/
structure TokenPosition where
  amount : ℚ
  avg_price : ℚ
  total_cost : ℚ
  unrealized_pl : ℚ
deriving DecidableEq

/-- The zero-initialised position dict entry. -/
def TokenPosition.init : TokenPosition := ⟨0, 0, 0, 0⟩

/-- `VolumeTracker` state: trades plus session metadata and the two
accumulated maps (`initial_balances`, `price_impacts`). -/
structure VolumeTracker where
  trades : List TradeRecord
  session_start : Option ℚ
  target_volume : Option ℚ
  session_duration : Option ℚ
  initial_balances : List (String × ℚ)
  price_impacts : List (String × ℚ)
deriving DecidableEq

/-- `VolumeTracker.__init__`. -/
def VolumeTracker.new : VolumeTracker := ⟨[], none, none, none, [], []⟩

/-- `start_session(target_volume, duration_hours)`; `now` stands for
`datetime.now()`.  `timedelta(hours=h) if duration_hours else None`
maps a falsy hour count (absent or 0) to no duration. -/
def VolumeTracker.startSession (vt : VolumeTracker) (now : ℚ)
    (target_volume : Option ℚ) (duration_hours : Option ℕ) : VolumeTracker :=
  { vt with
    session_start := some now
    target_volume := target_volume
    session_duration :=
      match duration_hours with
      | some h => if h = 0 then none else some (h : ℚ)
      | none => none
    trades := [] }

/-- `record_trade(trade)`: append to the session's trade list. -/
def VolumeTracker.recordTrade (vt : VolumeTracker) (t : TradeRecord) : VolumeTracker :=
  { vt with trades := vt.trades ++ [t] }

/-- `get_session_volume()`: sum of `amount * price` over recorded trades. -/
def VolumeTracker.getSessionVolume (vt : VolumeTracker) : ℚ :=
  (vt.trades.map (fun t => t.amount * t.price)).sum

/-- One step of the position replay in `get_positions`: apply a single
trade to the position stored for its (wallet, token) key. -/
def applyTrade (pos : TokenPosition) (t : TradeRecord) : TokenPosition :=
  if t.side = "buy" then
    let total_cost := pos.amount * pos.avg_price + t.amount * t.price
    let new_amount := pos.amount + t.amount
    let p : TokenPosition :=
      { pos with
        avg_price := if new_amount > 0 then total_cost / new_amount else 0
        amount := new_amount
        total_cost := total_cost }
    { p with unrealized_pl := p.amount * (t.price - p.avg_price) }
  else
    let p : TokenPosition :=
      if pos.amount - t.amount ≤ 0 then
        { pos with amount := 0, avg_price := 0, total_cost := 0 }
      else
        { pos with amount := pos.amount - t.amount }
    { p with unrealized_pl := p.amount * (t.price - p.avg_price) }

/-- Positions map: keyed by (wallet address, token address) as the nested
dicts of `get_positions` are. -/
def PosMap := List ((String × String) × TokenPosition)

/-- Dict lookup in the positions map. -/
def findPos (m : PosMap) (k : String × String) : Option TokenPosition :=
  match m with
  | [] => none
  | (k', v) :: rest => if k' = k then some v else findPos rest k

/-- Dict write in the positions map: update in place, or append the new
key in insertion order. -/
def setPos (m : PosMap) (k : String × String) (v : TokenPosition) : PosMap :=
  match m with
  | [] => [(k, v)]
  | (k', v') :: rest => if k' = k then (k, v) :: rest else (k', v') :: setPos rest k v

/-- Body of the `get_positions` loop for one trade. -/
def applyTradeToMap (m : PosMap) (t : TradeRecord) : PosMap :=
  let k := (t.wallet_address, t.token_address)
  let pos := (findPos m k).getD TokenPosition.init
  setPos m k (applyTrade pos t)

/-- `get_positions()`: replay all trades in recorded order. -/
def VolumeTracker.getPositions (vt : VolumeTracker) : PosMap :=
  vt.trades.foldl applyTradeToMap []

/-! ### Wallet manager (`src/wallet/wallet_manager.py`)

Wallet addresses are modelled as naturals.  `Keypair()` generation is
modelled by an explicit supply `supply : ℕ → ℕ` indexed by a creation
counter carried in the state: the k-th keypair ever created has address
`supply k`.  RPC effects (`get_wallet_balance`, `_retry_transaction`)
are oracles passed in as functions. -/

/-- `WalletManager` state.  `trading_wallets` is the key list of the
`trading_wallets` dict (a fresh key is appended; re-inserting an existing
key leaves the key list unchanged); `wallets` maps round number to the
wallet group created in that round; `next_key` is the creation counter
feeding the keypair supply. -/
structure WalletManager where
  max_wallets : ℕ
  current_round : ℕ
  wallets : List (ℕ × List ℕ)
  trading_wallets : List ℕ
  next_key : ℕ
deriving DecidableEq

/-- A fresh manager with the given `MAX_WALLETS` configuration. -/
def WalletManager.new (max_wallets : ℕ) : WalletManager :=
  ⟨max_wallets, 0, [], [], 0⟩

/-- `create_trading_wallet()`: generate a keypair from the supply and
register it in `trading_wallets`. -/
def createTradingWallet (supply : ℕ → ℕ) (st : WalletManager) : WalletManager × ℕ :=
  let a := supply st.next_key
  ({ st with
      trading_wallets :=
        if a ∈ st.trading_wallets then st.trading_wallets
        else st.trading_wallets ++ [a]
      next_key := st.next_key + 1 }, a)

/-- The `for _ in range(size)` loop of `create_wallet_group`, threading
the manager state and accumulating the group in order. -/
def createGroupLoop (supply : ℕ → ℕ) : ℕ → WalletManager × List ℕ → WalletManager × List ℕ
  | 0, acc => acc
  | n + 1, (st, group) =>
      let (st', a) := createTradingWallet supply st
      createGroupLoop supply n (st', group ++ [a])

/-- `create_wallet_group(size)`: raises `ValueError` when `size`
exceeds `max_wallets`, otherwise creates `size` wallets, bumps the
round counter and records the group under the new round. -/
def createWalletGroup (supply : ℕ → ℕ) (st : WalletManager) (size : ℕ) :
    Except String (WalletManager × List ℕ) :=
  if size > st.max_wallets then
    .error "Requested wallet group size exceeds maximum"
  else
    let r := createGroupLoop supply size (st, [])
    .ok ({ r.1 with
            current_round := r.1.current_round + 1
            wallets := r.1.wallets ++ [(r.1.current_round + 1, r.2)] }, r.2)

/-- `recall_sol`'s per-wallet loop.  `bal` is the `get_wallet_balance`
oracle (SOL), `ok` tells whether `_retry_transaction` eventually succeeds
for the transfer from a given wallet.  Returns the Python return value
(`True`/`False`) together with the list of transfers handed to
`_retry_transaction`, each as (wallet, lamports). -/
def recallSolGo (bal : ℕ → ℚ) (ok : ℕ → Bool) (tw : List ℕ) :
    List ℕ → Bool × List (ℕ × ℤ)
  | [] => (true, [])
  | w :: ws =>
    if w ∈ tw then
      let b := bal w
      if b ≤ 0 then recallSolGo bal ok tw ws
      else
        let lamports := pyInt ((b - 1/1000) * 1000000000)
        if lamports ≤ 0 then recallSolGo bal ok tw ws
        else if ok w then
          let r := recallSolGo bal ok tw ws
          (r.1, (w, lamports) :: r.2)
        else (false, [(w, lamports)])
    else recallSolGo bal ok tw ws

/-- `recall_sol(wallet_keys)`: a missing main wallet key raises, which the
enclosing handler turns into `False`; otherwise the per-wallet loop runs. -/
def recallSol (bal : ℕ → ℚ) (ok : ℕ → Bool) (hasMainKey : Bool)
    (st : WalletManager) (wallet_keys : List ℕ) : Bool × List (ℕ × ℤ) :=
  if hasMainKey then recallSolGo bal ok st.trading_wallets wallet_keys
  else (false, [])

/-! ### Bundler (`src/trading/bundler.py`)

Transactions are opaque to `create_bundle`, so it is embedded
polymorphically; `_build_bundle`'s effect (submission to JITO) is an
oracle from a chunk to an optional bundle id. -/

/-- The chunking `[transactions[i:i+3] for i in range(0, len(transactions), 3)]`. -/
def chunks3 {α : Type} : List α → List (List α)
  | [] => []
  | [a] => [[a]]
  | [a, b] => [[a, b]]
  | a :: b :: c :: rest => [a, b, c] :: chunks3 rest

/-- The chunk loop of `create_bundle`: submit chunks in order, stop at the
first success.  Returns the overall result and the list of chunks actually
handed to `_build_bundle`. -/
def createBundleGo {α : Type} (submit : List α → Option String) :
    List (List α) → Option String × List (List α)
  | [] => (none, [])
  | c :: cs =>
    match submit c with
    | some r => (some r, [c])
    | none =>
      let p := createBundleGo submit cs
      (p.1, c :: p.2)

/-- `create_bundle(transactions)`: chunk, then submit in order until one
chunk succeeds. -/
def createBundle {α : Type} (submit : List α → Option String) (txs : List α) :
    Option String × List (List α) :=
  createBundleGo submit (chunks3 txs)

/-! ### MEV protection (`src/trading/mev_protection.py`)

Transactions here are Python dicts; the fields the module touches are
modelled as a structure.  `random.shuffle` is an explicit permutation
parameter, `random.choice` draws are explicit boolean/wallet parameters. -/

/-- A transaction dict as handled by `MEVProtection`. -/
structure PTx where
  amount : ℚ
  is_buy : Bool
  slippage : ℚ
  recentBlockhash : Option String
  wallet : Option String
deriving DecidableEq

/-- `_create_backrun_transaction(main_tx)`: opposite direction, amount
`max(trade_amount * min_backrun_amount, 0.001)` with
`min_backrun_amount = 0.01`. -/
def createBackrunTransaction (main : PTx) : PTx :=
  { amount := max (main.amount * (1/100)) (1/1000)
    is_buy := !main.is_buy
    slippage := 1
    recentBlockhash := main.recentBlockhash
    wallet := none }

/-- `_create_sandwich_protection(main_tx, wallet_group)`: two decoys of
minimal amount; `r1, r2` are the `random.choice([True, False])` draws and
`w1, w2` the `random.choice(wallet_group)` draws. -/
def createSandwichProtection (main : PTx) (r1 r2 : Bool) (w1 w2 : String) : List PTx :=
  [ ⟨1/10000, r1, 1, main.recentBlockhash, some w1⟩,
    ⟨1/10000, r2, 1, main.recentBlockhash, some w2⟩ ]

/-- `_create_protection_transactions(main_tx, wallet_group)`: the backrun
transaction (a non-empty dict, hence always appended) followed by the
sandwich decoys, truncated to 3. -/
def createProtectionTransactions (main : PTx) (r1 r2 : Bool) (w1 w2 : String) : List PTx :=
  (createBackrunTransaction main :: createSandwichProtection main r1 r2 w1 w2).take 3

/-- The bundle dict built by `create_protected_bundle`. -/
structure PBundle where
  transactions : List PTx
  recentBlockhash : Option String
deriving DecidableEq

/-- `create_protected_bundle(main_transaction, wallet_group)`: main
transaction plus protection transactions, shuffled. -/
def createProtectedBundle (shuffle : List PTx → List PTx) (main : PTx)
    (r1 r2 : Bool) (w1 w2 : String) : PBundle :=
  { transactions := shuffle (main :: createProtectionTransactions main r1 r2 w1 w2)
    recentBlockhash := main.recentBlockhash }

/-! ### Risk manager (`src/trading/risk_manager.py`)

Prices and amounts are `Decimal`s in the source, modelled as rationals.
The per-tick DEX reads (`get_market_price`, `calculate_price_impact`) are
the tick's explicit inputs. -/

/-- `Position.__init__` fields. -/
structure RMPosition where
  token_address : String
  wallet_address : String
  entry_price : ℚ
  amount : ℚ
  stop_loss_threshold : ℚ
  trailing_stop : Bool
  trailing_distance : ℚ
  highest_price : ℚ
  stop_loss_price : ℚ
deriving DecidableEq

/-- `Position(...)` constructor: the high starts at the entry price and
the stop at `entry_price * stop_loss_threshold`. -/
def mkPosition (token wallet : String) (entry amount threshold : ℚ)
    (trailing : Bool) (tdist : ℚ) : RMPosition :=
  ⟨token, wallet, entry, amount, threshold, trailing, tdist, entry, entry * threshold⟩

/-- The trailing-stop update of one `_check_positions` tick for one
position: when trailing is on and the price exceeds the recorded high,
raise the high and recompute the stop as
`current_price * (1 - (trailing_distance + price_impact * 2))`. -/
def checkTickUpdate (p : RMPosition) (price impact : ℚ) : RMPosition :=
  if p.trailing_stop = true ∧ p.highest_price < price then
    { p with
      highest_price := price
      stop_loss_price := price * (1 - (p.trailing_distance + impact * 2)) }
  else p

/-- Whether the tick then triggers the stop: `current_price <=
position.stop_loss_price` against the freshly updated stop. -/
def checkTickTriggered (p : RMPosition) (price impact : ℚ) : Bool :=
  price ≤ (checkTickUpdate p price impact).stop_loss_price

/-- The successive position states over a sequence of monitoring ticks,
each tick supplying the observed (price, price impact). -/
def monitorTicks (p : RMPosition) (ticks : List (ℚ × ℚ)) : List RMPosition :=
  ticks.scanl (fun q t => checkTickUpdate q t.1 t.2) p

/-- The positions dict key `f"{wallet_address}:{token_address}"`. -/
def positionKey (wallet token : String) : String := wallet ++ ":" ++ token

/-- `remove_position(wallet, token)`: `positions.pop(key, None)`. -/
def removePosition (m : List (String × RMPosition)) (wallet token : String) :
    List (String × RMPosition) :=
  m.filter (fun e => e.1 ≠ positionKey wallet token)

/-- The trade parameter dict handed to `execute_protected_trade`. -/
structure TradeParams where
  token_address : String
  amount : ℚ
  is_buy : Bool
  slippage : ℚ
deriving DecidableEq

/-- `_execute_stop_loss(position, current_price)`: build the emergency
sell parameters (full amount, sell side, slippage 1.0) and call the
executor; when that call returns normally the position is removed, when
it raises the handler only logs and the positions map is left unchanged.
Returns the new positions map and the parameters of the issued sell. -/
def executeStopLoss (m : List (String × RMPosition)) (p : RMPosition)
    (sellResult : Except String String) : List (String × RMPosition) × TradeParams :=
  let trade_params : TradeParams := ⟨p.token_address, p.amount, false, 1⟩
  match sellResult with
  | .ok _ => (removePosition m p.wallet_address p.token_address, trade_params)
  | .error _ => (m, trade_params)

/-! ## Verified properties -/

/-- C10: `startSession` resets the recorded trade list to empty and sets
the new session's start time, target volume and duration, while leaving
the accumulated `initial_balances` and `price_impacts` maps unchanged, so
they carry over into the new session. -/
theorem startSession_resets_trades_keeps_maps (vt : VolumeTracker) (now : ℚ)
    (tv : Option ℚ) (dh : Option ℕ) :
    (vt.startSession now tv dh).trades = []
    ∧ (vt.startSession now tv dh).session_start = some now
    ∧ (vt.startSession now tv dh).target_volume = tv
    ∧ (vt.startSession now tv dh).session_duration =
        (match dh with
         | some h => if h = 0 then none else some (h : ℚ)
         | none => none)
    ∧ (vt.startSession now tv dh).initial_balances = vt.initial_balances
    ∧ (vt.startSession now tv dh).price_impacts = vt.price_impacts :=
  ⟨rfl, rfl, rfl, rfl, rfl, rfl⟩

/-- C4: `getSessionVolume` is the sum of `amount * price` over the
recorded trades, and it is invariant under permutation of the recording
order. -/
theorem sessionVolume_sum_and_perm (vt vt' : VolumeTracker) :
    vt.getSessionVolume = (vt.trades.map (fun t => t.amount * t.price)).sum
    ∧ (vt.trades.Perm vt'.trades → vt.getSessionVolume = vt'.getSessionVolume) := by
  refine ⟨rfl, fun h => ?_⟩
  exact List.Perm.sum_eq (h.map (fun t => t.amount * t.price))

/-- Witness for C4 at a concrete pair of trackers whose trade lists are
permutations of one another. -/
theorem sessionVolume_sum_and_perm_witness :
    VolumeTracker.getSessionVolume
        ⟨[⟨0, "w", "k", "buy", 2, 10, 0, 0⟩, ⟨1, "w", "k", "sell", 3, 7, 0, 0⟩],
          none, none, none, [], []⟩
      = VolumeTracker.getSessionVolume
        ⟨[⟨1, "w", "k", "sell", 3, 7, 0, 0⟩, ⟨0, "w", "k", "buy", 2, 10, 0, 0⟩],
          none, none, none, [], []⟩ :=
  (sessionVolume_sum_and_perm _ _).2 (by decide)

/-- A positive truncation means a positive argument. -/
theorem pyInt_pos {q : ℚ} (h : 0 < pyInt q) : 0 < q := by
  unfold pyInt at h
  split at h
  · rename_i hq
    rcases eq_or_lt_of_le hq with h0 | h0
    · rw [← h0] at h; simp at h
    · exact h0
  · rename_i hq
    have : (⌈q⌉ : ℤ) ≤ 0 := Int.ceil_le.mpr (by exact_mod_cast le_of_lt (lt_of_not_le hq))
    omega

/-- Every transfer handed to `_retry_transaction` by the `recall_sol`
loop is for a strictly positive lamport amount, from a wallet whose
balance strictly exceeds the 0.001 SOL reserve. -/
theorem recallSolGo_attempts_pos (bal : ℕ → ℚ) (ok : ℕ → Bool) (tw : List ℕ)
    (keys : List ℕ) (w : ℕ) (lam : ℤ)
    (h : (w, lam) ∈ (recallSolGo bal ok tw keys).2) :
    0 < lam ∧ 1/1000 < bal w := by
  induction keys with
  | nil => simp [recallSolGo] at h
  | cons k ks ih =>
    rw [recallSolGo] at h
    by_cases hmem : k ∈ tw
    · simp only [hmem, if_true] at h
      by_cases hb : bal k ≤ 0
      · rw [if_pos hb] at h; exact ih h
      · rw [if_neg hb] at h
        by_cases hlam : pyInt ((bal k - 1/1000) * 1000000000) ≤ 0
        · rw [if_pos hlam] at h; exact ih h
        · rw [if_neg hlam] at h
          have hpos : 0 < pyInt ((bal k - 1/1000) * 1000000000) := lt_of_not_le hlam
          have hbal : 1/1000 < bal k := by
            have hq := pyInt_pos hpos
            nlinarith
          cases hok : ok k with
          | true =>
            rw [hok] at h
            simp only [if_true, List.mem_cons] at h
            rcases h with h | h
            · rw [Prod.mk.injEq] at h
              obtain ⟨hw, hl⟩ := h
              subst hw; subst hl
              exact ⟨hpos, hbal⟩
            · exact ih h
          | false =>
            rw [hok] at h
            simp only [Bool.false_eq_true, if_false, List.mem_singleton] at h
            rw [Prod.mk.injEq] at h
            obtain ⟨hw, hl⟩ := h
            subst hw; subst hl
            exact ⟨hpos, hbal⟩
    · simp only [hmem, if_false] at h
      exact ih h

/-- C9: `recall_sol` issues no transfer for a wallet whose balance is at
or below the 0.001 SOL reserve, and never attempts a transfer of zero or
negative lamports. -/
theorem recallSol_never_negative_transfer (bal : ℕ → ℚ) (ok : ℕ → Bool)
    (hk : Bool) (st : WalletManager) (keys : List ℕ) (w : ℕ) (lam : ℤ)
    (h : (w, lam) ∈ (recallSol bal ok hk st keys).2) :
    0 < lam ∧ ¬ (bal w ≤ 1/1000) := by
  unfold recallSol at h
  split at h
  · have := recallSolGo_attempts_pos bal ok st.trading_wallets keys w lam h
    exact ⟨this.1, not_le_of_lt this.2⟩
  · simp at h

/-- Witness for C9: a wallet with balance 1 SOL yields exactly one
attempted transfer of 999000000 lamports. -/
theorem recallSol_never_negative_transfer_witness :
    0 < (999000000 : ℤ) ∧ ¬ ((1 : ℚ) ≤ 1/1000) :=
  recallSol_never_negative_transfer (fun _ => 1) (fun _ => true) true
    ⟨10, 1, [(1, [0])], [0], 1⟩ [0] 0 999000000
    (by norm_num [recallSol, recallSolGo, pyInt, Rat.floor_def])

/-- C1 divergence witness: with two funded registered wallets where the
first wallet's transfer exhausts its retries, `recall_sol` returns the
boolean `False` at once and never processes the second wallet — it does
not continue past the per-wallet failure and returns no accumulated
total. -/
theorem recallSol_fail_fast_eval :
    recallSol (fun _ => 1) (fun w => w != 0) true
      ⟨10, 1, [(1, [0, 1])], [0, 1], 2⟩ [0, 1]
    = (false, [(0, 999000000)]) := by
  norm_num [recallSol, recallSolGo, pyInt, Rat.floor_def]

/-- C3: position replay computes the volume-weighted average price on
buys, decreases the amount on sells with a reset to the zero position
whenever the amount reaches zero or below, and hence a buy followed by a
sell of the same amount on the same wallet and token leaves that position
with amount, average price and total cost all exactly 0. -/
theorem positions_replay_vwap :
    (∀ (pos : TokenPosition) (t : TradeRecord), t.side = "buy" →
        0 < pos.amount + t.amount →
        (applyTrade pos t).amount = pos.amount + t.amount
        ∧ (applyTrade pos t).avg_price
            = (pos.amount * pos.avg_price + t.amount * t.price) / (pos.amount + t.amount)
        ∧ (applyTrade pos t).total_cost = pos.amount * pos.avg_price + t.amount * t.price)
    ∧ (∀ (pos : TokenPosition) (t : TradeRecord), t.side ≠ "buy" →
        (pos.amount - t.amount ≤ 0 →
          (applyTrade pos t).amount = 0 ∧ (applyTrade pos t).avg_price = 0
          ∧ (applyTrade pos t).total_cost = 0)
        ∧ (0 < pos.amount - t.amount →
          (applyTrade pos t).amount = pos.amount - t.amount))
    ∧ (∀ (w tok : String) (a p ts1 ts2 pl1 pl2 im1 im2 : ℚ) (vt : VolumeTracker),
        vt.trades = [⟨ts1, w, tok, "buy", a, p, pl1, im1⟩,
                     ⟨ts2, w, tok, "sell", a, p, pl2, im2⟩] →
        findPos vt.getPositions (w, tok) = some TokenPosition.init) := by
  refine ⟨?_, ?_, ?_⟩
  · intro pos t hs hpos
    simp [applyTrade, hs, hpos]
  · intro pos t hs
    constructor
    · intro hle
      simp [applyTrade, hs, hle]
    · intro hgt
      simp [applyTrade, hs, not_le.mpr hgt]
  · intro w tok a p ts1 ts2 pl1 pl2 im1 im2 vt htr
    rw [VolumeTracker.getPositions, htr]
    simp [applyTradeToMap, applyTrade, setPos, findPos, TokenPosition.init]

/-- Witness for C3 at a concrete buy-then-sell pair of equal amount. -/
theorem positions_replay_vwap_witness :
    findPos (VolumeTracker.getPositions
        ⟨[⟨0, "w", "tok", "buy", 2, 10, 0, 0⟩, ⟨1, "w", "tok", "sell", 2, 10, 0, 0⟩],
          none, none, none, [], []⟩) ("w", "tok") = some TokenPosition.init :=
  positions_replay_vwap.2.2 "w" "tok" 2 10 0 1 0 0 0 0 _ rfl

/-- Every chunk produced by the bundler's chunking has at most 3
transactions. -/
theorem chunks3_mem_length {α : Type} (l : List α) : ∀ c ∈ chunks3 l, c.length ≤ 3 := by
  induction l using chunks3.induct with
  | case1 => simp [chunks3]
  | case2 a => simp [chunks3]
  | case3 a b => simp [chunks3]
  | case4 a b c rest ih =>
    intro d hd
    simp only [chunks3, List.mem_cons] at hd
    rcases hd with rfl | hd
    · simp
    · exact ih d hd

/-- The chunks are consecutive and cover the input: joining them gives
back the transaction list. -/
theorem chunks3_flatten {α : Type} (l : List α) : (chunks3 l).flatten = l := by
  induction l using chunks3.induct with
  | case1 => simp [chunks3]
  | case2 a => simp [chunks3]
  | case3 a b => simp [chunks3]
  | case4 a b c rest ih => simp [chunks3, ih]

/-- The chunk loop returns the id of the first successful submission. -/
theorem createBundleGo_fst {α : Type} (submit : List α → Option String)
    (cs : List (List α)) :
    (createBundleGo submit cs).1 = cs.findSome? submit := by
  induction cs with
  | nil => rfl
  | cons c cs ih =>
    cases h : submit c with
    | some r => simp [createBundleGo, h]
    | none => simp [createBundleGo, h, ih]

/-- The chunk loop submits, in order, exactly the failing chunks up to
and including the first successful one. -/
theorem createBundleGo_snd {α : Type} (submit : List α → Option String)
    (cs : List (List α)) :
    (createBundleGo submit cs).2
      = cs.takeWhile (fun c => (submit c).isNone)
        ++ (cs.dropWhile (fun c => (submit c).isNone)).take 1 := by
  induction cs with
  | nil => rfl
  | cons c cs ih =>
    cases h : submit c with
    | some r => simp [createBundleGo, h, List.takeWhile_cons, List.dropWhile_cons]
    | none => simp [createBundleGo, h, List.takeWhile_cons, List.dropWhile_cons, ih]

/-- C5: `create_bundle` splits the input into consecutive chunks of at
most 3, submits them in order, returns the id of the first successful
chunk without attempting the later chunks, and returns null when no
chunk succeeds. -/
theorem createBundle_chunks_first_success {α : Type}
    (submit : List α → Option String) (txs : List α) :
    (∀ c ∈ chunks3 txs, c.length ≤ 3)
    ∧ (chunks3 txs).flatten = txs
    ∧ (createBundle submit txs).1 = (chunks3 txs).findSome? submit
    ∧ (createBundle submit txs).2
        = (chunks3 txs).takeWhile (fun c => (submit c).isNone)
          ++ ((chunks3 txs).dropWhile (fun c => (submit c).isNone)).take 1 :=
  ⟨chunks3_mem_length txs, chunks3_flatten txs,
    createBundleGo_fst submit (chunks3 txs), createBundleGo_snd submit (chunks3 txs)⟩

/-- Witness for C5 on a concrete 4-transaction list, whose first chunk
is the first three transactions. -/
theorem createBundle_chunks_first_success_witness :
    ([1, 2, 3] : List ℕ).length ≤ 3 :=
  (createBundle_chunks_first_success
      (fun c => if c = [4] then some "bundle" else none) [1, 2, 3, 4]).1
    [1, 2, 3] (by decide)

/-- C6: the protected bundle holds the main transaction plus at most 3
protection transactions (at most 4 in total, enforced by the truncation
of the protection list to 3), and the backrun protection transaction has
the opposite direction of the main transaction and amount
`max(mainAmount * 1%, 0.001)`. -/
theorem protectedBundle_cap_and_backrun (shuffle : List PTx → List PTx) (main : PTx)
    (r1 r2 : Bool) (w1 w2 : String)
    (hs : ∀ l, (shuffle l).Perm l) :
    (createProtectedBundle shuffle main r1 r2 w1 w2).transactions.length ≤ 4
    ∧ main ∈ (createProtectedBundle shuffle main r1 r2 w1 w2).transactions
    ∧ createBackrunTransaction main
        ∈ (createProtectedBundle shuffle main r1 r2 w1 w2).transactions
    ∧ (createBackrunTransaction main).is_buy = !main.is_buy
    ∧ (createBackrunTransaction main).amount = max (main.amount * (1/100)) (1/1000)
    ∧ (createProtectionTransactions main r1 r2 w1 w2).length ≤ 3 := by
  have hperm := hs (main :: createProtectionTransactions main r1 r2 w1 w2)
  refine ⟨?_, ?_, ?_, rfl, rfl, ?_⟩
  · have hlen := hperm.length_eq
    simp only [createProtectedBundle]
    rw [hlen]
    simp [createProtectionTransactions, createSandwichProtection]
  · exact hperm.mem_iff.mpr (List.mem_cons_self _ _)
  · refine hperm.mem_iff.mpr ?_
    simp [createProtectionTransactions, createSandwichProtection]
  · simp [createProtectionTransactions, createSandwichProtection]

/-- Witness for C6 with the identity shuffle on a concrete buy. -/
theorem protectedBundle_cap_and_backrun_witness :
    (createProtectedBundle id ⟨5, true, 1/2, none, none⟩ true false "a" "b").transactions.length ≤ 4 :=
  (protectedBundle_cap_and_backrun id ⟨5, true, 1/2, none, none⟩ true false "a" "b"
    (fun l => List.Perm.refl l)).1

/-- C2 counterexample: with `maxWallets = 10` and 5 wallets already
outstanding, `create_wallet_group(6)` succeeds — the source checks only
`size > max_wallets` and ignores the outstanding wallet count, so the
claimed `CapacityError` is not raised. -/
theorem createWalletGroup_capacity_counterexample :
    (createWalletGroup id ⟨10, 1, [(1, [0, 1, 2, 3, 4])], [0, 1, 2, 3, 4], 5⟩ 6).isOk = true
    ∧ (⟨10, 1, [(1, [0, 1, 2, 3, 4])], [0, 1, 2, 3, 4], 5⟩ : WalletManager).trading_wallets.length = 5 := by
  decide

/-- The group accumulated by the creation loop is the supply applied to
the consecutive creation counters. -/
theorem createGroupLoop_group (supply : ℕ → ℕ) (n : ℕ) :
    ∀ (st : WalletManager) (acc : List ℕ),
      (createGroupLoop supply n (st, acc)).2
        = acc ++ (List.range n).map (fun i => supply (st.next_key + i)) := by
  induction n with
  | zero => intro st acc; simp [createGroupLoop]
  | succ n ih =>
    intro st acc
    simp only [createGroupLoop, createTradingWallet]
    rw [ih]
    have harg : (fun i => supply (st.next_key + 1 + i))
        = (fun i => supply (st.next_key + (i + 1))) := by
      funext i; congr 1; omega
    simp [List.range_succ_eq_map, List.map_map, Function.comp, harg]

/-- C2 amended: `create_wallet_group(size)` fails exactly when `size`
exceeds `max_wallets`, irrespective of how many wallets are already
outstanding; a successful call returns `size` distinct addresses
(distinct provided keypair generation never repeats a key). -/
theorem createWalletGroup_size_check (supply : ℕ → ℕ) (st : WalletManager) (size : ℕ)
    (hinj : Function.Injective supply) :
    ((createWalletGroup supply st size).isOk = true ↔ size ≤ st.max_wallets)
    ∧ (∀ st2 group, createWalletGroup supply st size = .ok (st2, group) →
        group.length = size ∧ group.Nodup) := by
  constructor
  · unfold createWalletGroup
    split
    · next h =>
      have hlt : ¬ size ≤ st.max_wallets := by omega
      simp [Except.isOk, Except.toBool, hlt]
    · next h =>
      have hle : size ≤ st.max_wallets := by omega
      simp [Except.isOk, Except.toBool, hle]
  · intro st2 group hok
    unfold createWalletGroup at hok
    split at hok
    · exact absurd hok (by simp)
    · injection hok with hpair
      have hg : group = (createGroupLoop supply size (st, [])).2 :=
        ((Prod.mk.injEq _ _ _ _).mp hpair).2.symm
      rw [hg, createGroupLoop_group]
      constructor
      · simp
      · refine List.Nodup.map ?_ (List.nodup_range size)
        intro i j hij
        have := hinj hij
        omega

/-- Witness for C2's amended statement: a fresh manager with
`maxWallets = 10` creating a group of 5 distinct addresses. -/
theorem createWalletGroup_size_check_witness :
    ([0, 1, 2, 3, 4] : List ℕ).length = 5 ∧ ([0, 1, 2, 3, 4] : List ℕ).Nodup :=
  (createWalletGroup_size_check id (WalletManager.new 10) 5 (fun _ _ h => h)).2
    ⟨10, 1, [(1, [0, 1, 2, 3, 4])], [0, 1, 2, 3, 4], 5⟩ [0, 1, 2, 3, 4] rfl

/-- C7 counterexample: with trailing enabled and the observed price only
rising (101 then 102), a jump in the per-tick price impact (0 then 0.3)
makes the recomputed stop drop from 98.98 to 38.76 — the stop price is
not non-decreasing from tick to tick as claimed. -/
theorem trailing_stop_counterexample :
    (101 : ℚ) ≤ 102
    ∧ ((monitorTicks (mkPosition "tok" "w" 100 1 (19/20) true (1/50))
          [(101, 0), (102, 3/10)]).map RMPosition.stop_loss_price)
        = [95, 4949/50, 969/25]
    ∧ ¬ (((monitorTicks (mkPosition "tok" "w" 100 1 (19/20) true (1/50))
          [(101, 0), (102, 3/10)]).map RMPosition.stop_loss_price).Chain' (· ≤ ·)) := by
  have hlist : ((monitorTicks (mkPosition "tok" "w" 100 1 (19/20) true (1/50))
          [(101, 0), (102, 3/10)]).map RMPosition.stop_loss_price)
        = [95, 4949/50, 969/25] := by
    norm_num [monitorTicks, checkTickUpdate, mkPosition, List.scanl]
  refine ⟨by norm_num, hlist, ?_⟩
  rw [hlist]
  norm_num [List.chain'_cons, List.chain'_singleton]

/-- One monitoring tick never lowers the stop, given a fixed per-tick
price impact `c` whose induced stop factor is nonnegative and currently
dominates the stored stop. -/
theorem checkTick_stop_mono_aux (d c : ℚ) (hf : 0 ≤ 1 - (d + c * 2))
    (prices : List ℚ) :
    ∀ p : RMPosition, p.trailing_stop = true → p.trailing_distance = d →
      0 ≤ p.highest_price →
      p.stop_loss_price ≤ p.highest_price * (1 - (d + c * 2)) →
      ((monitorTicks p (prices.map (fun pr => (pr, c)))).map
          RMPosition.stop_loss_price).Chain' (· ≤ ·) := by
  induction prices with
  | nil =>
    intro p _ _ _ _
    simp [monitorTicks]
  | cons pr prs ih =>
    intro p htr hd hh hinv
    have hstep : p.stop_loss_price ≤ (checkTickUpdate p pr c).stop_loss_price := by
      rw [checkTickUpdate]
      split
      · next hcond =>
        simp only [hd]
        calc p.stop_loss_price ≤ p.highest_price * (1 - (d + c * 2)) := hinv
          _ ≤ pr * (1 - (d + c * 2)) :=
            mul_le_mul_of_nonneg_right (le_of_lt hcond.2) hf
      · exact le_refl _
    have htr' : (checkTickUpdate p pr c).trailing_stop = true := by
      rw [checkTickUpdate]; split <;> simpa
    have hd' : (checkTickUpdate p pr c).trailing_distance = d := by
      rw [checkTickUpdate]; split <;> simpa
    have hh' : 0 ≤ (checkTickUpdate p pr c).highest_price := by
      rw [checkTickUpdate]
      split
      · next hcond => exact le_of_lt (lt_of_le_of_lt hh hcond.2)
      · exact hh
    have hinv' : (checkTickUpdate p pr c).stop_loss_price
        ≤ (checkTickUpdate p pr c).highest_price * (1 - (d + c * 2)) := by
      rw [checkTickUpdate]
      split
      · next hcond => simp [hd]
      · exact hinv
    have hmt : monitorTicks p (((pr :: prs)).map (fun x => (x, c)))
        = p :: monitorTicks (checkTickUpdate p pr c) (prs.map (fun x => (x, c))) := rfl
    rw [hmt, List.map_cons]
    refine List.chain'_cons'.mpr ⟨?_, ih (checkTickUpdate p pr c) htr' hd' hh' hinv'⟩
    intro x hx
    have hhead : (List.map RMPosition.stop_loss_price
        (monitorTicks (checkTickUpdate p pr c) (prs.map (fun x => (x, c))))).head?
        = some (checkTickUpdate p pr c).stop_loss_price := by
      cases prs <;> simp [monitorTicks]
    rw [hhead] at hx
    cases hx
    exact hstep

/-- C7 amended: for a freshly added position with trailing enabled, the
stop price is non-decreasing from tick to tick over any sequence of
monitoring ticks with only-rising prices, provided every tick observes
the same price impact `c` and `trailingDistance + 2*c` does not exceed
`1 - stopLossThreshold` (with nonnegative entry price and threshold) —
without the fixed-impact bound the property fails, per the
counterexample. -/
theorem trailing_stop_monotone (token wallet : String)
    (entry amount thr d c : ℚ) (prices : List ℚ)
    (hentry : 0 ≤ entry) (hthr : 0 ≤ thr) (hfac : thr ≤ 1 - (d + c * 2))
    (_hrise : prices.Chain' (· ≤ ·)) :
    ((monitorTicks (mkPosition token wallet entry amount thr true d)
        (prices.map (fun pr => (pr, c)))).map
        RMPosition.stop_loss_price).Chain' (· ≤ ·) := by
  have hf : 0 ≤ 1 - (d + c * 2) := le_trans hthr hfac
  refine checkTick_stop_mono_aux d c hf prices _ rfl rfl hentry ?_
  simpa [mkPosition] using mul_le_mul_of_nonneg_left hfac hentry

/-- Witness for C7's amended statement: rising prices 101, 102 with zero
impact raise the stop from 95 to 98.98 to 99.96. -/
theorem trailing_stop_monotone_witness :
    ((monitorTicks (mkPosition "tok" "w" 100 1 (19/20) true (1/50))
        ([101, 102].map (fun pr => (pr, 0)))).map
        RMPosition.stop_loss_price).Chain' (· ≤ ·) :=
  trailing_stop_monotone "tok" "w" 100 1 (19/20) (1/50) 0 [101, 102]
    (by norm_num) (by norm_num) (by norm_num)
    (by norm_num [List.chain'_cons, List.chain'_singleton])

/-- C8 counterexample: when the emergency sell raises, the enclosing
handler only logs, so the position is left in the positions map — it is
not removed regardless of the sell's outcome as claimed; the removal the
claim predicts would have emptied the map. -/
theorem stopLoss_keeps_position_on_raise :
    (executeStopLoss
        [(positionKey "w" "tok", mkPosition "tok" "w" 100 5 (19/20) false (1/50))]
        (mkPosition "tok" "w" 100 5 (19/20) false (1/50))
        (Except.error "rpc down")).1
      = [(positionKey "w" "tok", mkPosition "tok" "w" 100 5 (19/20) false (1/50))]
    ∧ removePosition
        [(positionKey "w" "tok", mkPosition "tok" "w" 100 5 (19/20) false (1/50))]
        "w" "tok" = [] := by
  constructor
  · rfl
  · simp [removePosition, positionKey]

/-- C8 amended: a triggered stop issues a sell of the position's full
amount with slippage tolerance 1.0; the position is removed from the
positions map when the sell returns without raising, and is left in the
map when the sell raises. -/
theorem stopLoss_sell_params_and_removal (m : List (String × RMPosition))
    (p : RMPosition) (s e : String) :
    (executeStopLoss m p (Except.ok s)).2 = ⟨p.token_address, p.amount, false, 1⟩
    ∧ (executeStopLoss m p (Except.ok s)).1
        = removePosition m p.wallet_address p.token_address
    ∧ (executeStopLoss m p (Except.error e)).2 = ⟨p.token_address, p.amount, false, 1⟩
    ∧ (executeStopLoss m p (Except.error e)).1 = m :=
  ⟨rfl, rfl, rfl, rfl⟩

end Soda
